import Mathlib

/-!
Verification of the threads-post-collector repository against its
natural-language specification.  The Python source is shallowly embedded:
the SQLite store becomes an explicit record of row lists, sync-manager
loops become recursive functions over the list of fetched pages or post
ids, and network or database calls that may raise become `Except` or
oracle parameters.  Wall-clock logging, printing and file IO side effects
carry no data relevant to the claims and are not modelled; the sync_log
table is likewise an append-only audit row that no claim mentions.
-/

namespace ThreadsSpec

/-! ## Embedding of utils.iso_to_unix

The Python function is
`datetime.datetime.strptime(iso_str, "%Y-%m-%dT%H:%M:%S%z")` followed by
`int(dt.timestamp())`.  CPython strptime compiles the format to a regex:
`%Y` is exactly four digits, `%m`/`%d`/`%H`/`%M`/`%S` are one or two
digits with the documented ranges, literals are matched (the whole regex
is case-insensitive, so the literal T also matches t), and `%z` is
`[+-]\d\d:?[0-5]\d(:?[0-5]\d)?` or the letter Z.  The datetime
constructor then validates the civil date (month length, leap years),
seconds at most 59, year at least 1, and a timezone offset strictly below
24 hours; `timestamp()` of an aware datetime is the civil seconds count
since the epoch minus the offset.  Any failure raises, which the
embedding models as `none`. -/

/-- Numeric value of a decimal digit character. -/
def digitVal (c : Char) : Nat := c.toNat - 48

/-- Parse exactly `n` leading decimal digits, returning their value. -/
def parseNDigits : Nat → Nat → List Char → Option (Nat × List Char)
  | 0, acc, cs => some (acc, cs)
  | n + 1, acc, c :: cs =>
    if c.isDigit then parseNDigits n (acc * 10 + digitVal c) cs else none
  | _ + 1, _, [] => none

/-- Parse exactly two leading decimal digits. -/
def parseTwoDigits (cs : List Char) : Option (Nat × List Char) :=
  match cs with
  | c1 :: c2 :: rest =>
    if c1.isDigit && c2.isDigit then some (digitVal c1 * 10 + digitVal c2, rest)
    else none
  | _ => none

/-- Parse a one-or-two digit field the way the strptime regexes do: a
two-digit form with value in `[lo2, hi2]` is preferred, otherwise a single
digit with value in `[lo1, hi1]`. -/
def parseField12 (lo2 hi2 lo1 hi1 : Nat) : List Char → Option (Nat × List Char)
  | c1 :: c2 :: cs =>
    if c1.isDigit && c2.isDigit
        && decide (lo2 ≤ digitVal c1 * 10 + digitVal c2)
        && decide (digitVal c1 * 10 + digitVal c2 ≤ hi2) then
      some (digitVal c1 * 10 + digitVal c2, cs)
    else if c1.isDigit && decide (lo1 ≤ digitVal c1) && decide (digitVal c1 ≤ hi1) then
      some (digitVal c1, c2 :: cs)
    else none
  | [c1] =>
    if c1.isDigit && decide (lo1 ≤ digitVal c1) && decide (digitVal c1 ≤ hi1) then
      some (digitVal c1, [])
    else none
  | [] => none

/-- Expect one literal character. -/
def expectChar (c : Char) : List Char → Option (List Char)
  | x :: cs => if x = c then some cs else none
  | [] => none

/-- Expect the literal T of the format; strptime regexes are compiled
case-insensitively, so a lowercase t is also accepted. -/
def expectT : List Char → Option (List Char)
  | x :: cs => if x = 'T' ∨ x = 't' then some cs else none
  | [] => none

/-- Drop one leading colon when present (the `:?` of the offset regex). -/
def dropColon : List Char → List Char
  | ':' :: r => r
  | r => r

/-- Build the signed offset in seconds, enforcing the timezone bound of
strictly less than 24 hours that the datetime constructor checks. -/
def mkOffset (sign : Char) (hh mm ss : Nat) (rest : List Char) :
    Option (Int × List Char) :=
  let total := hh * 3600 + mm * 60 + ss
  if total < 86400 then
    some ((if sign = '-' then -(total : Int) else (total : Int)), rest)
  else none

/-- Parse the `%z` directive: `Z`, or a sign, two offset-hour digits, an
optional colon, two offset-minute digits below 60, and an optional
seconds group. -/
def parseOffset : List Char → Option (Int × List Char)
  | 'Z' :: cs => some (0, cs)
  | c :: cs =>
    if c = '+' ∨ c = '-' then
      match parseTwoDigits cs with
      | none => none
      | some (hh, rest) =>
        match parseTwoDigits (dropColon rest) with
        | none => none
        | some (mm, rest2) =>
          if 59 < mm then none
          else
            match parseTwoDigits (dropColon rest2) with
            | some (ss, rest4) =>
              if ss ≤ 59 then mkOffset c hh mm ss rest4
              else mkOffset c hh mm 0 rest2
            | none => mkOffset c hh mm 0 rest2
    else none
  | [] => none

/-- Leap-year predicate used by the civil-date validation. -/
def isLeapYear (y : Nat) : Bool :=
  (y % 4 = 0 && y % 100 ≠ 0) || y % 400 = 0

/-- Number of days in a month of a given year. -/
def daysInMonth (y m : Nat) : Nat :=
  if m = 2 then (if isLeapYear y then 29 else 28)
  else if m = 4 ∨ m = 6 ∨ m = 9 ∨ m = 11 then 30
  else 31

/-- Days from the civil date `(y, m, d)` to 1970-01-01 (negative before
the epoch), for a valid Gregorian date with `1 ≤ y`. -/
def daysFromCivil (y m d : Nat) : Int :=
  let yAdj := if m ≤ 2 then y - 1 else y
  let era := yAdj / 400
  let yoe := yAdj % 400
  let mp := if 2 < m then m - 3 else m + 9
  let doy := (153 * mp + 2) / 5 + d - 1
  let doe := yoe * 365 + yoe / 4 - yoe / 100 + doy
  ((era * 146097 + doe : Nat) : Int) - 719468

/-- Core parser for `"%Y-%m-%dT%H:%M:%S%z"` on an exploded string,
producing the Unix timestamp in seconds. -/
def parseIsoCore (cs0 : List Char) : Option Int := do
  let (y, cs1) ← parseNDigits 4 0 cs0
  let cs2 ← expectChar '-' cs1
  let (mo, cs3) ← parseField12 1 12 1 9 cs2
  let cs4 ← expectChar '-' cs3
  let (dy, cs5) ← parseField12 1 31 1 9 cs4
  let cs6 ← expectT cs5
  let (hh, cs7) ← parseField12 0 23 0 9 cs6
  let cs8 ← expectChar ':' cs7
  let (mi, cs9) ← parseField12 0 59 0 9 cs8
  let cs10 ← expectChar ':' cs9
  let (ss, cs11) ← parseField12 0 61 0 9 cs10
  let (off, cs12) ← parseOffset cs11
  if cs12 = [] ∧ 1 ≤ y ∧ ss ≤ 59 ∧ dy ≤ daysInMonth y mo then
    some (daysFromCivil y mo dy * 86400 + ((hh * 3600 + mi * 60 + ss : Nat) : Int) - off)
  else none

/-- Embedding of `utils.iso_to_unix`; `none` models the exception raised
by strptime or the datetime constructor on invalid input. -/
def iso_to_unix (s : String) : Option Int := parseIsoCore s.data

example : iso_to_unix "1970-01-01T00:00:00+0000" = some 0 := by decide
example : iso_to_unix "1970-01-01T00:00:01+0000" = some 1 := by decide
example : iso_to_unix "2024-01-01T00:00:00+0000" = some 1704067200 := by decide
example : iso_to_unix "2024-01-01T00:00:00+0800" = some 1704038400 := by decide
example : iso_to_unix "2023-12-31T23:00:00+0000" = some 1704063600 := by decide
example : iso_to_unix "bad" = none := by decide
example : iso_to_unix "2023-02-29T00:00:00+0000" = none := by decide
example : iso_to_unix "1969-12-31T23:59:59-0100" = some 3599 := by decide

/-! ## Data model

Embeds the rows of the two data tables created by
`SQLiteDB.initialize_tables` and the dictionaries the API client hands to
the insert methods.  Nullable TEXT columns are `Option String`; the 0/1
flag columns that the code only ever writes as 0 or 1 are `Bool`.  The
`children`, `root_post` and `replied_to` values are stored after
`json.dumps`, so the embedding carries them as the serialized
`Option String` they become at the storage boundary. -/

/-- Raw value of the `is_quote_post` key of an API post dictionary, as
inspected by `SQLiteDB._normalize_post`: a bool, an int, or anything else
(including a missing key). -/
inductive QuoteFieldValue where
  | qbool (b : Bool)
  | qint (n : Int)
  | qother
deriving DecidableEq

/-- Embeds the `is_quote_post` branch of `SQLiteDB._normalize_post`:
bools map to 1/0, ints map to 1 when truthy and 0 otherwise, and
everything else defaults to 0. -/
def normalize_is_quote_post : QuoteFieldValue → Int
  | .qbool b => if b then 1 else 0
  | .qint n => if n = 0 then 0 else 1
  | .qother => 0

/-- A post dictionary as fetched from the API, restricted to the keys
`SQLiteDB._insert_single_post` reads. -/
structure ApiPost where
  id : Option String
  text : Option String
  media_type : Option String
  media_url : Option String
  thumbnail_url : Option String
  permalink : Option String
  children : Option String
  timestamp : Option String
  is_quote_post : QuoteFieldValue
deriving DecidableEq

/-- A row of the `threads_posts` table. -/
structure PostRow where
  id : Option String
  text : Option String
  media_type : Option String
  media_url : Option String
  thumbnail_url : Option String
  permalink : Option String
  children : Option String
  timestamp : Option String
  is_quote_post : Int
  exported : Bool
  replies_fetched : Bool
deriving DecidableEq

/-- A reply dictionary as fetched from the conversation endpoint,
restricted to the keys `SQLiteDB.insert_replies` reads; the three
truthiness-converted fields are carried as the Bool they are tested as. -/
structure ApiReply where
  id : Option String
  text : Option String
  username : Option String
  permalink : Option String
  timestamp : Option String
  media_type : Option String
  media_url : Option String
  shortcode : Option String
  thumbnail_url : Option String
  children : Option String
  has_replies : Bool
  root_post : Option String
  replied_to : Option String
  is_reply : Bool
  is_reply_owned_by_me : Bool
  hide_status : Option String
deriving DecidableEq

/-- A row of the `threads_replies` table. -/
structure ReplyRow where
  id : Option String
  post_id : Option String
  text : Option String
  username : Option String
  permalink : Option String
  timestamp : Option String
  media_type : Option String
  media_url : Option String
  shortcode : Option String
  thumbnail_url : Option String
  children : Option String
  has_replies : Bool
  root_post : Option String
  replied_to : Option String
  is_reply : Bool
  is_reply_owned_by_me : Bool
  hide_status : Option String
deriving DecidableEq

/-- The SQLite store: the two data tables as ordered row lists. -/
structure Store where
  posts : List PostRow
  replies : List ReplyRow
deriving DecidableEq

/-! ## Embedding of the SQLiteDB operations -/

/-- SQL equality on a nullable id column: NULL compares equal to
nothing, including another NULL. -/
def sqlEqId : Option String → Option String → Bool
  | some a, some b => a == b
  | _, _ => false

/-- The row built by `SQLiteDB._insert_single_post` after
`_normalize_post`; the `exported` and `replies_fetched` columns take
their schema defaults. -/
def post_row_of (p : ApiPost) : PostRow :=
  { id := p.id
    text := p.text
    media_type := p.media_type
    media_url := p.media_url
    thumbnail_url := p.thumbnail_url
    permalink := p.permalink
    children := p.children
    timestamp := p.timestamp
    is_quote_post := normalize_is_quote_post p.is_quote_post
    exported := false
    replies_fetched := false }

/-- Embeds `SQLiteDB._insert_single_post`: INSERT OR IGNORE appends the
row unless some existing row has an equal (non-NULL) primary key. -/
def insert_single_post (p : ApiPost) (s : Store) : Store :=
  if s.posts.any (fun r => sqlEqId r.id p.id) then s
  else { s with posts := s.posts ++ [post_row_of p] }

/-- Embeds `SQLiteDB.insert_posts` on a list argument: each post is
normalized and inserted in order. -/
def insert_posts (ps : List ApiPost) (s : Store) : Store :=
  ps.foldl (fun st p => insert_single_post p st) s

/-- The row built by `SQLiteDB.insert_replies` for one reply. -/
def reply_row_of (pid : Option String) (r : ApiReply) : ReplyRow :=
  { id := r.id
    post_id := pid
    text := r.text
    username := r.username
    permalink := r.permalink
    timestamp := r.timestamp
    media_type := r.media_type
    media_url := r.media_url
    shortcode := r.shortcode
    thumbnail_url := r.thumbnail_url
    children := r.children
    has_replies := r.has_replies
    root_post := r.root_post
    replied_to := r.replied_to
    is_reply := r.is_reply
    is_reply_owned_by_me := r.is_reply_owned_by_me
    hide_status := r.hide_status }

/-- One INSERT OR IGNORE into `threads_replies`. -/
def insert_single_reply (pid : Option String) (r : ApiReply) (s : Store) : Store :=
  if s.replies.any (fun row => sqlEqId row.id r.id) then s
  else { s with replies := s.replies ++ [reply_row_of pid r] }

/-- Embeds `SQLiteDB.insert_replies`: every reply of the list is
inserted with ignore-on-conflict semantics. -/
def insert_replies (pid : Option String) (rs : List ApiReply) (s : Store) : Store :=
  rs.foldl (fun st r => insert_single_reply pid r st) s

/-- The SQL predicate `media_type != 'REPOST_FACADE'`, which is not
satisfied by a NULL media_type (NULL comparisons are not true). -/
def sql_not_repost (mt : Option String) : Bool :=
  match mt with
  | some m => m != "REPOST_FACADE"
  | none => false

/-- Embeds `SQLiteDB.get_posts_without_replies`: ids of rows with
`replies_fetched=0 AND media_type != 'REPOST_FACADE'`. -/
def get_posts_without_replies (s : Store) : List (Option String) :=
  (s.posts.filter (fun r => !r.replies_fetched && sql_not_repost r.media_type)).map
    (fun r => r.id)

/-- Embeds `SQLiteDB.update_replies_fetched`: sets the flag on every row
whose id equals the given post id (none when the id is NULL). -/
def update_replies_fetched (pid : Option String) (s : Store) : Store :=
  { s with
    posts := s.posts.map (fun r =>
      if sqlEqId r.id pid then { r with replies_fetched := true } else r) }

/-- Lexicographic comparison of character lists by code point, with a
proper prefix ordered first.  On UTF-8 data bytewise comparison agrees
with code-point comparison, so this is the memcmp order of the SQLite
BINARY collation. -/
def charListLt : List Char → List Char → Bool
  | [], [] => false
  | [], _ :: _ => true
  | _ :: _, [] => false
  | a :: as, b :: bs =>
    if a.toNat < b.toNat then true
    else if b.toNat < a.toNat then false
    else charListLt as bs

/-- The BINARY-collation strict order on strings. -/
def strLtB (a b : String) : Bool := charListLt a.data b.data

/-- One step of the SQLite `MAX` aggregate over a nullable TEXT column:
NULL values are skipped and non-NULL values compare under the BINARY
collation. -/
def maxOptText (acc o : Option String) : Option String :=
  match acc, o with
  | none, o => o
  | some a, none => some a
  | some a, some b => some (if strLtB a b then b else a)

/-- `SELECT MAX(timestamp)` over a column of nullable TEXT values. -/
def sqliteMaxText (l : List (Option String)) : Option String :=
  l.foldl maxOptText none

/-- Embeds `SQLiteDB.get_max_timestamp`: the string MAX of the timestamp
column is returned through `iso_to_unix` when it is truthy (neither NULL
nor the empty string); a parse failure raises, modelled as `.error`. -/
def get_max_timestamp (s : Store) : Except Unit (Option Int) :=
  match sqliteMaxText (s.posts.map (fun r => r.timestamp)) with
  | none => .ok none
  | some str =>
    if str = "" then .ok none
    else
      match iso_to_unix str with
      | some v => .ok (some v)
      | none => .error ()

/-- Embeds the `SELECT * FROM threads_posts WHERE exported=0` query of
`SQLiteDB.export_to_csv`. -/
def export_selection (s : Store) : List PostRow :=
  s.posts.filter (fun r => !r.exported)

/-- Timestamp parsing of one selected row inside `export_to_csv`: a NULL
or unparseable timestamp string is skipped (the exception is caught and
logged per row). -/
def row_parsed_ts (r : PostRow) : Option Int :=
  match r.timestamp with
  | some ts => iso_to_unix ts
  | none => none

/-- The `UPDATE threads_posts SET exported=1 WHERE exported=0` statement
run after a successful CSV write. -/
def mark_all_exported (s : Store) : Store :=
  { s with
    posts := s.posts.map (fun r => if r.exported then r else { r with exported := true }) }

/-- Embeds `SQLiteDB.export_to_csv`.  The first component models the
written file: `none` when nothing is written (empty selection, or no
selected row has a parseable timestamp), and otherwise the earliest and
latest parsed timestamps that name the file together with the rows
written.  The second component is the store afterwards. -/
def export_to_csv (s : Store) : Option (Int × Int × List PostRow) × Store :=
  let rows := export_selection s
  if rows.isEmpty then (none, s)
  else
    match rows.filterMap row_parsed_ts with
    | [] => (none, s)
    | t :: ts => (some (ts.foldl min t, ts.foldl max t, rows), mark_all_exported s)

/-! ## Embedding of ThreadsSyncManager

Each sync mode returns the `{"success": ..., "count": ...}` result
dictionary together with the store it leaves behind.  Network behaviour
is supplied by oracles: the paginated generator becomes a list of page
events (a page of posts, or the exception the generator raises after its
retries are exhausted), and the per-call fetchers become `Except`-valued
functions. -/

/-- The result dictionary returned by every sync mode. -/
structure SyncResult where
  success : Bool
  count : Nat
deriving DecidableEq

/-- One event produced by iterating `fetch_posts_paginated`: a page of
posts, or the exception that aborts the generator. -/
inductive PageEvent where
  | page (ps : List ApiPost)
  | fetchError
deriving DecidableEq

/-- The page loop of `ThreadsSyncManager.initial_sync`: every non-empty
page is inserted immediately and counted; the first exception stops the
loop, keeping the accumulated count and store. -/
def initial_sync_loop : List PageEvent → Store → Nat → Bool × Nat × Store
  | [], s, n => (true, n, s)
  | PageEvent.page ps :: rest, s, n =>
    if ps.isEmpty then initial_sync_loop rest s n
    else initial_sync_loop rest (insert_posts ps s) (n + ps.length)
  | PageEvent.fetchError :: _, s, n => (false, n, s)

/-- Embeds `ThreadsSyncManager.initial_sync` over a page-event trace. -/
def initial_sync (events : List PageEvent) (s : Store) : SyncResult × Store :=
  let r := initial_sync_loop events s 0
  ({ success := r.1, count := r.2.1 }, r.2.2)

/-- Embeds the watermark computation of
`ThreadsSyncManager.incremental_sync`, lines
`last_ts = self.db.get_max_timestamp()` and
`since = last_ts + 1 if last_ts else None`: the value passed as the
`since` argument of `fetch_posts_paginated`.  Python truthiness makes
both `None` and `0` fall to the no-bound branch. -/
def incremental_since_arg (s : Store) : Except Unit (Option Int) :=
  match get_max_timestamp s with
  | .error e => .error e
  | .ok none => .ok none
  | .ok (some t) => .ok (if t = 0 then none else some (t + 1))

/-- Embeds `ThreadsSyncManager.sync_time_range` with the outcome of
`fetch_posts_by_range` as oracle: on success every post is inserted and
counted; the exception branch resets the count to zero and marks the run
failed, leaving the store untouched. -/
def sync_time_range (fetched : Except Unit (List ApiPost)) (s : Store) :
    SyncResult × Store :=
  match fetched with
  | .ok posts => ({ success := true, count := posts.length }, insert_posts posts s)
  | .error _ => ({ success := false, count := 0 }, s)

/-- The per-post loop of `ThreadsSyncManager.sync_replies`.  A
successful fetch inserts the replies when there are any, adds their
number to the count, and then marks the post as fetched; a fetch that
raises is caught, logged, and the loop continues with the next post id
without touching the store. -/
def sync_replies_loop (fetch : Option String → Except Unit (List ApiReply)) :
    List (Option String) → Store → Nat → Store × Nat
  | [], s, n => (s, n)
  | pid :: rest, s, n =>
    match fetch pid with
    | .ok rs =>
      let s1 := if rs.isEmpty then s else insert_replies pid rs s
      let n1 := if rs.isEmpty then n else n + rs.length
      sync_replies_loop fetch rest (update_replies_fetched pid s1) n1
    | .error _ => sync_replies_loop fetch rest s n

/-- Embeds `ThreadsSyncManager.sync_replies`.  The first argument is the
outcome of the `get_posts_without_replies` query (the honest caller
passes `.ok (get_posts_without_replies s)`; `.error` models the query
itself raising, the only failure that reaches the outer handler). -/
def sync_replies (query : Except Unit (List (Option String)))
    (fetch : Option String → Except Unit (List ApiReply)) (s : Store) :
    SyncResult × Store :=
  match query with
  | .error _ => ({ success := false, count := 0 }, s)
  | .ok pids =>
    let r := sync_replies_loop fetch pids s 0
    ({ success := true, count := r.2 }, r.1)

/-! ## Embedding of the HTTP retry loops of ThreadsAPIClient

`fetch_posts_paginated` wraps each page request in
`while retries < max_retries` with `max_retries=3`, catching only
`requests.exceptions.HTTPError`; when the loop falls through, the
`while`-`else` raises a fatal exception that aborts the generator.
`fetch_replies` has the same shape with `max_retries=5` and a `raise`
after the loop.  A non-HTTP exception is not caught and propagates from
the attempt that raised it. -/

/-- Outcome of one HTTP attempt. -/
inductive AttemptOutcome (α : Type) where
  | succ (v : α)
  | httpError
  | otherError
deriving DecidableEq

/-- How a modelled fetch fails: the fatal error raised when the retry
ceiling is exhausted, or a non-HTTP exception propagating uncaught. -/
inductive FetchFailure where
  | retriesExhausted
  | nonHttp
deriving DecidableEq

/-- The retry loop shared by both fetchers: attempt `i` is consulted
while retries remain; an HTTP error consumes one retry, success returns,
and any other exception propagates at once. -/
def retryFetch {α : Type} (attempts : Nat → AttemptOutcome α) :
    Nat → Nat → Except FetchFailure α
  | _, 0 => .error .retriesExhausted
  | i, n + 1 =>
    match attempts i with
    | .succ v => .ok v
    | .httpError => retryFetch attempts (i + 1) n
    | .otherError => .error .nonHttp

/-- One page request of `fetch_posts_paginated`, retry ceiling 3. -/
def fetch_page_with_retries (attempts : Nat → AttemptOutcome (List ApiPost)) :
    Except FetchFailure (List ApiPost) :=
  retryFetch attempts 0 3

/-- One conversation request of `fetch_replies`, default retry ceiling 5. -/
def fetch_replies_with_retries (attempts : Nat → AttemptOutcome (List ApiReply)) :
    Except FetchFailure (List ApiReply) :=
  retryFetch attempts 0 5

/-! ## Helper lemmas -/

/-- Total reply count a replies-only run accumulates: the lengths of the
reply lists of the posts whose fetch succeeded, summed in order. -/
def fetched_replies_count (fetch : Option String → Except Unit (List ApiReply))
    (pids : List (Option String)) : Nat :=
  (pids.map (fun pid =>
    match fetch pid with
    | .ok rs => rs.length
    | .error _ => 0)).sum

theorem sync_replies_loop_count (fetch : Option String → Except Unit (List ApiReply)) :
    ∀ (pids : List (Option String)) (s : Store) (n : Nat),
      (sync_replies_loop fetch pids s n).2 = n + fetched_replies_count fetch pids := by
  intro pids
  induction pids with
  | nil => intro s n; simp [sync_replies_loop, fetched_replies_count]
  | cons pid rest ih =>
    intro s n
    cases hf : fetch pid with
    | ok rs =>
      have h1 : sync_replies_loop fetch (pid :: rest) s n =
          sync_replies_loop fetch rest
            (update_replies_fetched pid (if rs.isEmpty then s else insert_replies pid rs s))
            (if rs.isEmpty then n else n + rs.length) := by
        simp [sync_replies_loop, hf]
      have h2 : fetched_replies_count fetch (pid :: rest) =
          rs.length + fetched_replies_count fetch rest := by
        simp [fetched_replies_count, hf]
      rw [h1, ih, h2]
      cases rs with
      | nil => simp
      | cons a l =>
        simp only [List.isEmpty_cons, Bool.false_eq_true, if_false]
        omega
    | error e =>
      have h1 : sync_replies_loop fetch (pid :: rest) s n =
          sync_replies_loop fetch rest s n := by
        simp [sync_replies_loop, hf]
      have h2 : fetched_replies_count fetch (pid :: rest) =
          fetched_replies_count fetch rest := by
        simp [fetched_replies_count, hf]
      rw [h1, ih, h2]

theorem initial_sync_loop_pages (rest : List PageEvent) :
    ∀ (pages : List (List ApiPost)) (s : Store) (n : Nat),
      initial_sync_loop (pages.map PageEvent.page ++ PageEvent.fetchError :: rest) s n =
        (false, n + (pages.map List.length).sum,
          pages.foldl (fun st ps => insert_posts ps st) s) := by
  intro pages
  induction pages with
  | nil => intro s n; simp [initial_sync_loop]
  | cons ps ptail ih =>
    intro s n
    cases ps with
    | nil =>
      have h1 : initial_sync_loop
            (List.map PageEvent.page ([] :: ptail) ++ PageEvent.fetchError :: rest) s n =
          initial_sync_loop
            (List.map PageEvent.page ptail ++ PageEvent.fetchError :: rest) s n := by
        simp [initial_sync_loop]
      rw [h1, ih]
      simp [insert_posts]
    | cons p more =>
      have h1 : initial_sync_loop
            (List.map PageEvent.page ((p :: more) :: ptail) ++ PageEvent.fetchError :: rest) s n =
          initial_sync_loop
            (List.map PageEvent.page ptail ++ PageEvent.fetchError :: rest)
            (insert_posts (p :: more) s) (n + (p :: more).length) := by
        simp [initial_sync_loop]
      rw [h1, ih]
      simp only [List.map_cons, List.sum_cons, List.foldl_cons, Nat.add_assoc]

/-! ## Claims -/

/-- Claim C2 (confirmed).  In replies-only sync, a per-post fetch
exception is caught and the run continues: with any query result the run
reports success with count equal to the summed reply counts of exactly
the posts whose fetch succeeded, and only an exception in the
posts-without-replies query itself yields a failed result (which also
leaves the store untouched). -/
theorem C2_per_post_failures_isolated :
    (∀ (pids : List (Option String))
        (fetch : Option String → Except Unit (List ApiReply)) (s : Store),
        (sync_replies (.ok pids) fetch s).1 =
          { success := true, count := fetched_replies_count fetch pids })
    ∧ (∀ (fetch : Option String → Except Unit (List ApiReply)) (s : Store),
        sync_replies (.error ()) fetch s = ({ success := false, count := 0 }, s)) := by
  constructor
  · intro pids fetch s
    show ({ success := true, count := (sync_replies_loop fetch pids s 0).2 } : SyncResult) = _
    rw [sync_replies_loop_count]
    simp
  · intro fetch s
    rfl

/-- Claim C4 (confirmed).  Inserting a post or a reply whose id already
exists in the corresponding table is ignored: the store, and in
particular the stored row for that id with its exported and
replies_fetched flags, is exactly what it was after the first insert. -/
theorem C4_insert_or_ignore_idempotent :
    (∀ (s : Store) (p : ApiPost) (x : String), p.id = some x →
        (∃ r ∈ s.posts, r.id = some x) → insert_posts [p] s = s)
    ∧ (∀ (s : Store) (pid : Option String) (rp : ApiReply) (x : String),
        rp.id = some x →
        (∃ r ∈ s.replies, r.id = some x) → insert_replies pid [rp] s = s) := by
  constructor
  · intro s p x hid hex
    obtain ⟨r, hr, hrid⟩ := hex
    have hany : s.posts.any (fun r => sqlEqId r.id p.id) = true := by
      rw [List.any_eq_true]
      exact ⟨r, hr, by rw [hrid, hid]; simp [sqlEqId]⟩
    show insert_single_post p s = s
    simp [insert_single_post, hany]
  · intro s pid rp x hid hex
    obtain ⟨r, hr, hrid⟩ := hex
    have hany : s.replies.any (fun row => sqlEqId row.id rp.id) = true := by
      rw [List.any_eq_true]
      exact ⟨r, hr, by rw [hrid, hid]; simp [sqlEqId]⟩
    show insert_single_reply pid rp s = s
    simp [insert_single_reply, hany]

/-- Witness for C4 at a concrete one-row store for each table. -/
def w4_post : ApiPost :=
  { id := some "p1", text := some "hello", media_type := some "TEXT_POST"
    media_url := none, thumbnail_url := none, permalink := none
    children := none, timestamp := some "2024-01-01T00:00:00+0000"
    is_quote_post := .qbool false }

def w4_reply : ApiReply :=
  { id := some "r1", text := some "hi", username := some "u"
    permalink := none, timestamp := none, media_type := none
    media_url := none, shortcode := none, thumbnail_url := none
    children := none, has_replies := false, root_post := none
    replied_to := none, is_reply := true, is_reply_owned_by_me := false
    hide_status := none }

def w4_store : Store :=
  { posts := [{ post_row_of w4_post with exported := true, replies_fetched := true }]
    replies := [reply_row_of (some "p1") w4_reply] }

theorem C4_insert_or_ignore_idempotent_witness :
    insert_posts [w4_post] w4_store = w4_store
    ∧ insert_replies (some "p1") [w4_reply] w4_store = w4_store :=
  ⟨C4_insert_or_ignore_idempotent.1 w4_store w4_post "p1" rfl (by decide),
   C4_insert_or_ignore_idempotent.2 w4_store (some "p1") w4_reply "r1" rfl (by decide)⟩

/-- Claim C5 (confirmed).  In full-history sync every fetched page is
inserted before the next page event is consumed, so when the generator
raises mid-loop the run returns failure with the count of the posts of
the pages already inserted, and the store holds exactly those pages. -/
theorem C5_initial_sync_partial_progress (pages : List (List ApiPost))
    (rest : List PageEvent) (s : Store) :
    initial_sync (pages.map PageEvent.page ++ PageEvent.fetchError :: rest) s =
      ({ success := false, count := (pages.map List.length).sum },
        pages.foldl (fun st ps => insert_posts ps st) s) := by
  simp only [initial_sync]
  rw [initial_sync_loop_pages rest pages s 0]
  simp

/-- Claim C6 (confirmed).  In time-range sync any exception yields a
failed result with count zero and no partial insert: the store is
returned unchanged. -/
theorem C6_time_range_no_partial_credit (s : Store) :
    sync_time_range (.error ()) s = ({ success := false, count := 0 }, s) := rfl

theorem retryFetch_exhausted {α : Type} (attempts : Nat → AttemptOutcome α) :
    ∀ (n i : Nat), (∀ j, j < n → attempts (i + j) = .httpError) →
      retryFetch attempts i n = .error .retriesExhausted := by
  intro n
  induction n with
  | zero => intro i _; rfl
  | succ m ih =>
    intro i h
    have h0 : attempts i = .httpError := by
      have := h 0 (Nat.succ_pos m)
      simpa using this
    have hstep : retryFetch attempts i (m + 1) = retryFetch attempts (i + 1) m := by
      simp [retryFetch, h0]
    rw [hstep]
    exact ih (i + 1) (fun j hj => by
      have := h (j + 1) (Nat.succ_lt_succ hj)
      simpa [Nat.add_assoc, Nat.add_comm 1 j] using this)

theorem retryFetch_success {α : Type} (attempts : Nat → AttemptOutcome α) (v : α) :
    ∀ (n k i : Nat), k < n → (∀ j, j < k → attempts (i + j) = .httpError) →
      attempts (i + k) = .succ v → retryFetch attempts i n = .ok v := by
  intro n
  induction n with
  | zero => intro k i hk; omega
  | succ m ih =>
    intro k i hk hpre hsucc
    cases k with
    | zero =>
      have h0 : attempts i = .succ v := by simpa using hsucc
      simp [retryFetch, h0]
    | succ k0 =>
      have h0 : attempts i = .httpError := by
        have := hpre 0 (Nat.succ_pos k0)
        simpa using this
      have hstep : retryFetch attempts i (m + 1) = retryFetch attempts (i + 1) m := by
        simp [retryFetch, h0]
      rw [hstep]
      refine ih k0 (i + 1) (Nat.lt_of_succ_lt_succ hk) (fun j hj => ?_) ?_
      · have := hpre (j + 1) (Nat.succ_lt_succ hj)
        simpa [Nat.add_assoc, Nat.add_comm 1 j] using this
      · have : i + 1 + k0 = i + (k0 + 1) := by omega
        rw [this]
        exact hsucc

/-- Claim C7 (confirmed).  In the paginated post fetch and the reply
fetch, HTTP errors are retried up to the retry ceiling (3 for a page of
posts, 5 by default for replies); exhausting the ceiling raises the
fatal error that aborts the fetch, an attempt succeeding within the
ceiling returns its data, and a non-HTTP exception propagates from the
first attempt without any retry. -/
theorem C7_retry_behavior :
    (∀ (attempts : Nat → AttemptOutcome (List ApiPost)),
        (∀ j, j < 3 → attempts j = .httpError) →
        fetch_page_with_retries attempts = .error .retriesExhausted)
    ∧ (∀ (attempts : Nat → AttemptOutcome (List ApiReply)),
        (∀ j, j < 5 → attempts j = .httpError) →
        fetch_replies_with_retries attempts = .error .retriesExhausted)
    ∧ (∀ (attempts : Nat → AttemptOutcome (List ApiPost)) (k : Nat) (v : List ApiPost),
        k < 3 → (∀ j, j < k → attempts j = .httpError) → attempts k = .succ v →
        fetch_page_with_retries attempts = .ok v)
    ∧ (∀ (attempts : Nat → AttemptOutcome (List ApiReply)) (k : Nat) (v : List ApiReply),
        k < 5 → (∀ j, j < k → attempts j = .httpError) → attempts k = .succ v →
        fetch_replies_with_retries attempts = .ok v)
    ∧ (∀ (attempts : Nat → AttemptOutcome (List ApiPost)),
        attempts 0 = .otherError → fetch_page_with_retries attempts = .error .nonHttp)
    ∧ (∀ (attempts : Nat → AttemptOutcome (List ApiReply)),
        attempts 0 = .otherError → fetch_replies_with_retries attempts = .error .nonHttp) := by
  refine ⟨?_, ?_, ?_, ?_, ?_, ?_⟩
  · intro attempts h
    exact retryFetch_exhausted attempts 3 0 (fun j hj => by simpa using h j hj)
  · intro attempts h
    exact retryFetch_exhausted attempts 5 0 (fun j hj => by simpa using h j hj)
  · intro attempts k v hk hpre hs
    exact retryFetch_success attempts v 3 k 0 hk
      (fun j hj => by simpa using hpre j hj) (by simpa using hs)
  · intro attempts k v hk hpre hs
    exact retryFetch_success attempts v 5 k 0 hk
      (fun j hj => by simpa using hpre j hj) (by simpa using hs)
  · intro attempts h
    simp [fetch_page_with_retries, retryFetch, h]
  · intro attempts h
    simp [fetch_replies_with_retries, retryFetch, h]

/-- Concrete attempt traces witnessing C7. -/
def all_http_posts : Nat → AttemptOutcome (List ApiPost) := fun _ => .httpError

def all_http_replies : Nat → AttemptOutcome (List ApiReply) := fun _ => .httpError

def one_http_then_ok_posts : Nat → AttemptOutcome (List ApiPost) :=
  fun i => if i = 0 then .httpError else .succ []

def one_http_then_ok_replies : Nat → AttemptOutcome (List ApiReply) :=
  fun i => if i = 0 then .httpError else .succ []

def other_error_posts : Nat → AttemptOutcome (List ApiPost) := fun _ => .otherError

def other_error_replies : Nat → AttemptOutcome (List ApiReply) := fun _ => .otherError

theorem C7_retry_behavior_witness :
    fetch_page_with_retries all_http_posts = .error .retriesExhausted
    ∧ fetch_replies_with_retries all_http_replies = .error .retriesExhausted
    ∧ fetch_page_with_retries one_http_then_ok_posts = .ok []
    ∧ fetch_replies_with_retries one_http_then_ok_replies = .ok []
    ∧ fetch_page_with_retries other_error_posts = .error .nonHttp
    ∧ fetch_replies_with_retries other_error_replies = .error .nonHttp :=
  ⟨C7_retry_behavior.1 all_http_posts (fun j _ => rfl),
   C7_retry_behavior.2.1 all_http_replies (fun j _ => rfl),
   C7_retry_behavior.2.2.1 one_http_then_ok_posts 1 [] (by omega)
     (fun j hj => by
       have hj0 : j = 0 := by omega
       rw [hj0]; rfl)
     rfl,
   C7_retry_behavior.2.2.2.1 one_http_then_ok_replies 1 [] (by omega)
     (fun j hj => by
       have hj0 : j = 0 := by omega
       rw [hj0]; rfl)
     rfl,
   C7_retry_behavior.2.2.2.2.1 other_error_posts rfl,
   C7_retry_behavior.2.2.2.2.2 other_error_replies rfl⟩

/-- Claim C3 (corrected).  The incremental-sync watermark: when the
stored maximum parses to a nonzero timestamp T the paginated fetch is
called with since = T + 1, and for an empty store it is called with no
since bound.  (The claim as stated also demanded since = T + 1 when
T = 0; Python truthiness sends that case to the no-bound branch, see the
counterexample.) -/
theorem C3_incremental_watermark :
    (∀ (s : Store) (t : Int), get_max_timestamp s = .ok (some t) → t ≠ 0 →
        incremental_since_arg s = .ok (some (t + 1)))
    ∧ (∀ s : Store, s.posts = [] → incremental_since_arg s = .ok none) := by
  constructor
  · intro s t h ht
    simp [incremental_since_arg, h, ht]
  · intro s h
    simp [incremental_since_arg, get_max_timestamp, h, sqliteMaxText]

def tick_row : PostRow :=
  { id := some "p1", text := none, media_type := some "TEXT_POST"
    media_url := none, thumbnail_url := none, permalink := none
    children := none, timestamp := some "1970-01-01T00:00:01+0000"
    is_quote_post := 0, exported := false, replies_fetched := false }

def tick_store : Store := { posts := [tick_row], replies := [] }

theorem C3_incremental_watermark_witness :
    incremental_since_arg tick_store = .ok (some 2)
    ∧ incremental_since_arg { posts := [], replies := [] } = .ok none :=
  ⟨C3_incremental_watermark.1 tick_store 1 rfl (by decide),
   C3_incremental_watermark.2 { posts := [], replies := [] } rfl⟩

def epoch_row : PostRow :=
  { tick_row with timestamp := some "1970-01-01T00:00:00+0000" }

def epoch_store : Store := { posts := [epoch_row], replies := [] }

/-- Counterexample to C3 as stated: a store whose maximum stored
timestamp parses to T = 0 (the Unix epoch) makes `if last_ts` falsy, so
the fetch is called with no since bound instead of since = 1. -/
theorem C3_counterexample :
    get_max_timestamp epoch_store = .ok (some 0)
    ∧ incremental_since_arg epoch_store = .ok none :=
  ⟨rfl, rfl⟩

theorem insert_single_reply_posts (pid : Option String) (r : ApiReply) (s : Store) :
    (insert_single_reply pid r s).posts = s.posts := by
  unfold insert_single_reply
  split <;> rfl

theorem insert_replies_posts (pid : Option String) (rs : List ApiReply) :
    ∀ s : Store, (insert_replies pid rs s).posts = s.posts := by
  induction rs with
  | nil => intro s; rfl
  | cons r rtail ih =>
    intro s
    have h : insert_replies pid (r :: rtail) s =
        insert_replies pid rtail (insert_single_reply pid r s) := rfl
    rw [h, ih, insert_single_reply_posts]

theorem update_replies_fetched_sets (pid : Option String) (s : Store) :
    ∀ r ∈ (update_replies_fetched pid s).posts,
      sqlEqId r.id pid = true → r.replies_fetched = true := by
  intro r hr hid
  simp only [update_replies_fetched, List.mem_map] at hr
  obtain ⟨a, _, ha⟩ := hr
  by_cases hq : sqlEqId a.id pid = true
  · rw [if_pos hq] at ha
    rw [← ha]
  · rw [if_neg hq] at ha
    rw [← ha] at hid
    exact absurd hid hq

theorem update_replies_fetched_preserves (pid q : Option String) (s : Store)
    (h : ∀ r ∈ s.posts, sqlEqId r.id pid = true → r.replies_fetched = true) :
    ∀ r ∈ (update_replies_fetched q s).posts,
      sqlEqId r.id pid = true → r.replies_fetched = true := by
  intro r hr hid
  simp only [update_replies_fetched, List.mem_map] at hr
  obtain ⟨a, hmem, ha⟩ := hr
  by_cases hq : sqlEqId a.id q = true
  · rw [if_pos hq] at ha
    rw [← ha]
  · rw [if_neg hq] at ha
    rw [← ha] at hid ⊢
    exact h a hmem hid

theorem sync_replies_loop_preserves_flag
    (fetch : Option String → Except Unit (List ApiReply)) (pid : Option String) :
    ∀ (pids : List (Option String)) (s : Store) (n : Nat),
      (∀ r ∈ s.posts, sqlEqId r.id pid = true → r.replies_fetched = true) →
      ∀ r ∈ (sync_replies_loop fetch pids s n).1.posts,
        sqlEqId r.id pid = true → r.replies_fetched = true := by
  intro pids
  induction pids with
  | nil => intro s n h; exact h
  | cons q rest ih =>
    intro s n h
    cases hf : fetch q with
    | ok rs =>
      have hstep : sync_replies_loop fetch (q :: rest) s n =
          sync_replies_loop fetch rest
            (update_replies_fetched q (if rs.isEmpty then s else insert_replies q rs s))
            (if rs.isEmpty then n else n + rs.length) := by
        simp [sync_replies_loop, hf]
      rw [hstep]
      refine ih _ _ (update_replies_fetched_preserves pid q _ ?_)
      intro r hr hid
      by_cases he : rs.isEmpty
      · rw [if_pos he] at hr
        exact h r hr hid
      · rw [if_neg he, insert_replies_posts] at hr
        exact h r hr hid
    | error e =>
      have hstep : sync_replies_loop fetch (q :: rest) s n =
          sync_replies_loop fetch rest s n := by
        simp [sync_replies_loop, hf]
      rw [hstep]
      exact ih s n h

theorem sync_replies_loop_sets_flag
    (fetch : Option String → Except Unit (List ApiReply)) (pid : Option String)
    (hok : ∃ rs, fetch pid = .ok rs) :
    ∀ (pids : List (Option String)) (s : Store) (n : Nat), pid ∈ pids →
      ∀ r ∈ (sync_replies_loop fetch pids s n).1.posts,
        sqlEqId r.id pid = true → r.replies_fetched = true := by
  intro pids
  induction pids with
  | nil => intro s n hmem; exact absurd hmem (List.not_mem_nil pid)
  | cons q rest ih =>
    intro s n hmem
    rcases List.mem_cons.mp hmem with heq | htail
    · obtain ⟨rs, hfs⟩ := hok
      rw [← heq]
      have hstep : sync_replies_loop fetch (pid :: rest) s n =
          sync_replies_loop fetch rest
            (update_replies_fetched pid (if rs.isEmpty then s else insert_replies pid rs s))
            (if rs.isEmpty then n else n + rs.length) := by
        simp [sync_replies_loop, hfs]
      rw [hstep]
      exact sync_replies_loop_preserves_flag fetch pid rest _ _
        (update_replies_fetched_sets pid _)
    · cases hf : fetch q with
      | ok rs =>
        have hstep : sync_replies_loop fetch (q :: rest) s n =
            sync_replies_loop fetch rest
              (update_replies_fetched q (if rs.isEmpty then s else insert_replies q rs s))
              (if rs.isEmpty then n else n + rs.length) := by
          simp [sync_replies_loop, hf]
        rw [hstep]
        exact ih _ _ htail
      | error e =>
        have hstep : sync_replies_loop fetch (q :: rest) s n =
            sync_replies_loop fetch rest s n := by
          simp [sync_replies_loop, hf]
        rw [hstep]
        exact ih s n htail

/-- Claim C1 (corrected).  After a replies-only run, every post id from
the initial posts-without-replies query whose reply fetch succeeded,
including a fetch that returned no replies, has its replies_fetched flag
set.  (The claim as stated also covered posts whose fetch raised; the
update runs after the fetch inside the same try block, so a failed post
keeps its flag at 0 and is retried next run — see the counterexample.) -/
theorem C1_replies_fetched_after_success (s : Store)
    (fetch : Option String → Except Unit (List ApiReply))
    (pid : Option String) (rs : List ApiReply)
    (hmem : pid ∈ get_posts_without_replies s)
    (hok : fetch pid = .ok rs) :
    ∀ r ∈ ((sync_replies (.ok (get_posts_without_replies s)) fetch s).2).posts,
      sqlEqId r.id pid = true → r.replies_fetched = true := by
  have h2 : (sync_replies (.ok (get_posts_without_replies s)) fetch s).2 =
      (sync_replies_loop fetch (get_posts_without_replies s) s 0).1 := rfl
  rw [h2]
  exact sync_replies_loop_sets_flag fetch pid ⟨rs, hok⟩
    (get_posts_without_replies s) s 0 hmem

/-- Concrete replies-only run witnessing C1: one unfetched post, a fetch
that succeeds with one reply. -/
def w1_row : PostRow :=
  { id := some "A", text := none, media_type := some "TEXT_POST"
    media_url := none, thumbnail_url := none, permalink := none
    children := none, timestamp := none, is_quote_post := 0
    exported := false, replies_fetched := false }

def w1_store : Store := { posts := [w1_row], replies := [] }

def w1_reply : ApiReply :=
  { id := some "r1", text := some "hey", username := some "u"
    permalink := none, timestamp := none, media_type := none
    media_url := none, shortcode := none, thumbnail_url := none
    children := none, has_replies := false, root_post := none
    replied_to := none, is_reply := true, is_reply_owned_by_me := false
    hide_status := none }

def w1_fetch : Option String → Except Unit (List ApiReply) := fun _ => .ok [w1_reply]

def w1_final_row : PostRow := { w1_row with replies_fetched := true }

theorem C1_replies_fetched_after_success_witness :
    (some "A") ∈ get_posts_without_replies w1_store
    ∧ w1_final_row.replies_fetched = true :=
  ⟨by decide,
   C1_replies_fetched_after_success w1_store w1_fetch (some "A") [w1_reply]
     (by decide) rfl w1_final_row (by decide) (by decide)⟩

/-- Concrete replies-only run refuting C1 as stated: the only pending
post is B and fetching its replies raises.  The run still succeeds, but
the store is unchanged, so B keeps replies_fetched = 0 even though the
claim requires it to be marked. -/
def c1_row : PostRow :=
  { id := some "B", text := none, media_type := some "TEXT_POST"
    media_url := none, thumbnail_url := none, permalink := none
    children := none, timestamp := none, is_quote_post := 0
    exported := false, replies_fetched := false }

def c1_store : Store := { posts := [c1_row], replies := [] }

def c1_fetch : Option String → Except Unit (List ApiReply) := fun _ => .error ()

theorem C1_counterexample :
    get_posts_without_replies c1_store = [some "B"]
    ∧ (sync_replies (.ok (get_posts_without_replies c1_store)) c1_fetch c1_store).1.success
        = true
    ∧ (sync_replies (.ok (get_posts_without_replies c1_store)) c1_fetch c1_store).2
        = c1_store
    ∧ c1_row ∈ c1_store.posts ∧ c1_row.id = some "B"
    ∧ c1_row.replies_fetched = false :=
  ⟨rfl, rfl, rfl, List.mem_singleton.mpr rfl, rfl, rfl⟩

theorem charListLt_irrefl : ∀ as, charListLt as as = false := by
  intro as
  induction as with
  | nil => rfl
  | cons a atail ih =>
    simp only [charListLt]
    rw [if_neg (Nat.lt_irrefl a.toNat), if_neg (Nat.lt_irrefl a.toNat)]
    exact ih

theorem charListLt_asymm : ∀ as bs, charListLt as bs = true → charListLt bs as = false := by
  intro as
  induction as with
  | nil =>
    intro bs h
    cases bs with
    | nil => cases h
    | cons b btail => rfl
  | cons a atail ih =>
    intro bs h
    cases bs with
    | nil => cases h
    | cons b btail =>
      simp only [charListLt] at h ⊢
      by_cases hab : a.toNat < b.toNat
      · rw [if_neg (by omega : ¬ b.toNat < a.toNat), if_pos hab]
      · rw [if_neg hab] at h
        by_cases hba : b.toNat < a.toNat
        · rw [if_pos hba] at h
          cases h
        · rw [if_neg hba] at h
          rw [if_neg hba, if_neg hab]
          exact ih btail h

theorem charListLt_neg_trans :
    ∀ as bs cs, charListLt bs as = false → charListLt cs bs = false →
      charListLt cs as = false := by
  intro as
  induction as with
  | nil =>
    intro bs cs _ _
    cases cs with
    | nil => rfl
    | cons c ctail => rfl
  | cons a atail ih =>
    intro bs cs hba hcb
    cases cs with
    | cons c ctail =>
      cases bs with
      | nil => cases hba
      | cons b btail =>
        simp only [charListLt] at hba hcb ⊢
        by_cases h1 : b.toNat < a.toNat
        · rw [if_pos h1] at hba
          cases hba
        · rw [if_neg h1] at hba
          by_cases h2 : c.toNat < b.toNat
          · rw [if_pos h2] at hcb
            cases hcb
          · rw [if_neg h2] at hcb
            have hca : ¬ c.toNat < a.toNat := by omega
            rw [if_neg hca]
            by_cases h3 : a.toNat < b.toNat
            · rw [if_pos (by omega : a.toNat < c.toNat)]
            · rw [if_neg h3] at hba
              by_cases h4 : b.toNat < c.toNat
              · rw [if_pos (by omega : a.toNat < c.toNat)]
              · rw [if_neg h4] at hcb
                by_cases h5 : a.toNat < c.toNat
                · rw [if_pos h5]
                · rw [if_neg h5]
                  exact ih btail ctail hba hcb
    | nil =>
      cases bs with
      | nil => cases hba
      | cons b btail => cases hcb

theorem strLtB_irrefl (a : String) : strLtB a a = false :=
  charListLt_irrefl a.data

theorem strLtB_asymm (a b : String) (h : strLtB a b = true) : strLtB b a = false :=
  charListLt_asymm a.data b.data h

theorem strLtB_neg_trans (a c s : String) (h1 : strLtB c a = false)
    (h2 : strLtB s c = false) : strLtB s a = false :=
  charListLt_neg_trans a.data c.data s.data h1 h2

theorem maxOptText_some_left (a : String) (o : Option String) :
    ∃ c, maxOptText (some a) o = some c ∧ strLtB c a = false := by
  cases o with
  | none => exact ⟨a, rfl, strLtB_irrefl a⟩
  | some b =>
    cases hab : strLtB a b with
    | true => exact ⟨b, by simp [maxOptText, hab], strLtB_asymm a b hab⟩
    | false => exact ⟨a, by simp [maxOptText, hab], strLtB_irrefl a⟩

theorem maxOptText_some_right (acc : Option String) (b : String) :
    ∃ c, maxOptText acc (some b) = some c ∧ strLtB c b = false := by
  cases acc with
  | none => exact ⟨b, rfl, strLtB_irrefl b⟩
  | some a =>
    cases hab : strLtB a b with
    | true => exact ⟨b, by simp [maxOptText, hab], strLtB_irrefl b⟩
    | false => exact ⟨a, by simp [maxOptText, hab], hab⟩

theorem maxOptText_eq_some (acc o : Option String) (x : String)
    (h : maxOptText acc o = some x) : acc = some x ∨ o = some x := by
  cases acc with
  | none => exact Or.inr h
  | some a =>
    cases o with
    | none => exact Or.inl h
    | some b =>
      simp only [maxOptText] at h
      cases hab : strLtB a b with
      | true =>
        rw [hab, if_pos rfl] at h
        exact Or.inr h
      | false =>
        rw [hab, if_neg Bool.false_ne_true] at h
        exact Or.inl h

theorem foldl_maxOptText_spec (l : List (Option String)) :
    ∀ (acc : Option String) (s : String), l.foldl maxOptText acc = some s →
      (acc = some s ∨ some s ∈ l)
      ∧ (∀ a, acc = some a → strLtB s a = false)
      ∧ (∀ t, some t ∈ l → strLtB s t = false) := by
  induction l with
  | nil =>
    intro acc s h
    have has : acc = some s := h
    refine ⟨Or.inl has, ?_, ?_⟩
    · intro a ha
      rw [ha] at has
      rw [← Option.some.inj has]
      exact strLtB_irrefl a
    · intro t ht
      exact absurd ht (List.not_mem_nil _)
  | cons o rest ih =>
    intro acc s h
    obtain ⟨hmem, hacc, hrest⟩ := ih (maxOptText acc o) s h
    refine ⟨?_, ?_, ?_⟩
    · rcases hmem with hm | hm
      · rcases maxOptText_eq_some acc o s hm with hx | hx
        · exact Or.inl hx
        · exact Or.inr (hx ▸ List.mem_cons_self o rest)
      · exact Or.inr (List.mem_cons_of_mem o hm)
    · intro a ha
      obtain ⟨c, hc, hca⟩ := maxOptText_some_left a o
      rw [← ha] at hc
      exact strLtB_neg_trans a c s hca (hacc c hc)
    · intro t ht
      rcases List.mem_cons.mp ht with hh | hh
      · obtain ⟨c, hc, htc⟩ := maxOptText_some_right acc t
        rw [hh] at hc
        exact strLtB_neg_trans t c s htc (hacc c hc)
      · exact hrest t hh

theorem sqliteMaxText_mem {l : List (Option String)} {s : String}
    (h : sqliteMaxText l = some s) : some s ∈ l := by
  rcases (foldl_maxOptText_spec l none s h).1 with h0 | h0
  · cases h0
  · exact h0

theorem sqliteMaxText_upper_bound {l : List (Option String)} {s : String}
    (h : sqliteMaxText l = some s) : ∀ t, some t ∈ l → strLtB s t = false :=
  (foldl_maxOptText_spec l none s h).2.2

/-- Claim C8 (corrected).  `get_max_timestamp` takes the SQL `MAX` of
the TEXT timestamp column, which under the BINARY collation is the
lexicographically greatest string.  Whenever that maximum is non-empty
and parses, the returned value is the parsed timestamp of some stored
post and no stored post has a lexicographically greater timestamp
string; for an empty store the result is none.  (The claim as stated
asserted that no stored post has a greater timestamp as a point in time;
with mixed UTC offsets the string maximum can parse below another row,
see the counterexample.) -/
theorem C8_get_max_timestamp_is_string_max :
    (∀ (s : Store) (str : String) (v : Int),
        sqliteMaxText (s.posts.map (fun r => r.timestamp)) = some str →
        str ≠ "" → iso_to_unix str = some v →
        get_max_timestamp s = .ok (some v)
        ∧ (∃ r ∈ s.posts, r.timestamp = some str)
        ∧ (∀ r ∈ s.posts, ∀ t, r.timestamp = some t → strLtB str t = false))
    ∧ (∀ s : Store, s.posts = [] → get_max_timestamp s = .ok none) := by
  constructor
  · intro s str v hmax hne hparse
    refine ⟨?_, ?_, ?_⟩
    · simp [get_max_timestamp, hmax, hne, hparse]
    · obtain ⟨r, hr, hrt⟩ := List.mem_map.mp (sqliteMaxText_mem hmax)
      exact ⟨r, hr, hrt⟩
    · intro r hr t ht
      exact sqliteMaxText_upper_bound hmax t
        (List.mem_map.mpr ⟨r, hr, ht⟩)
  · intro s h
    simp [get_max_timestamp, h, sqliteMaxText]

def w8_row_one : PostRow :=
  { tick_row with id := some "m1", timestamp := some "1970-01-01T00:00:01+0000" }

def w8_row_two : PostRow :=
  { tick_row with id := some "m2", timestamp := some "1970-01-01T00:00:02+0000" }

def w8_store : Store := { posts := [w8_row_one, w8_row_two], replies := [] }

theorem C8_get_max_timestamp_is_string_max_witness :
    get_max_timestamp w8_store = .ok (some 2)
    ∧ get_max_timestamp { posts := [], replies := [] } = .ok none :=
  ⟨(C8_get_max_timestamp_is_string_max.1 w8_store "1970-01-01T00:00:02+0000" 2
      (by decide) (by decide) (by decide)).1,
   C8_get_max_timestamp_is_string_max.2 { posts := [], replies := [] } rfl⟩

/-- Two stored posts with different UTC offsets refuting C8 as stated:
the lexicographic maximum string is the +0800 row, which parses to
1704038400, while the other stored post parses to 1704063600, a strictly
greater point in time than the returned value. -/
def c8_row_early : PostRow :=
  { tick_row with id := some "x1", timestamp := some "2023-12-31T23:00:00+0000" }

def c8_row_late : PostRow :=
  { tick_row with id := some "x2", timestamp := some "2024-01-01T00:00:00+0800" }

def c8_store : Store := { posts := [c8_row_early, c8_row_late], replies := [] }

theorem C8_counterexample :
    c8_store.posts ≠ []
    ∧ get_max_timestamp c8_store = .ok (some 1704038400)
    ∧ (∃ r ∈ c8_store.posts, row_parsed_ts r = some 1704063600)
    ∧ (1704038400 : Int) < 1704063600 :=
  ⟨by decide, rfl, ⟨c8_row_early, List.mem_cons_self _ _, rfl⟩, by decide⟩

theorem export_to_csv_of_empty_selection (s : Store) (h : export_selection s = []) :
    export_to_csv s = (none, s) := by
  simp [export_to_csv, h]

theorem export_to_csv_of_no_parsed (s : Store)
    (h : (export_selection s).filterMap row_parsed_ts = []) :
    export_to_csv s = (none, s) := by
  by_cases hr : export_selection s = []
  · exact export_to_csv_of_empty_selection s hr
  · have hE : (export_selection s).isEmpty = false := by
      cases hl : export_selection s with
      | nil => exact absurd hl hr
      | cons a l => rfl
    simp only [export_to_csv, hE, Bool.false_eq_true, if_false]
    rw [h]

theorem export_to_csv_of_parsed_cons (s : Store) (t : Int) (ts : List Int)
    (h : (export_selection s).filterMap row_parsed_ts = t :: ts) :
    export_to_csv s =
      (some (ts.foldl min t, ts.foldl max t, export_selection s), mark_all_exported s) := by
  have hr : export_selection s ≠ [] := by
    intro he
    rw [he] at h
    cases h
  have hE : (export_selection s).isEmpty = false := by
    cases hl : export_selection s with
    | nil => exact absurd hl hr
    | cons a l => rfl
  simp only [export_to_csv, hE, Bool.false_eq_true, if_false]
  rw [h]

theorem mark_all_exported_flags (s : Store) :
    ∀ r ∈ (mark_all_exported s).posts, r.exported = true := by
  intro r hr
  simp only [mark_all_exported, List.mem_map] at hr
  obtain ⟨a, _, ha⟩ := hr
  by_cases hx : a.exported = true
  · rw [if_pos hx] at ha
    rw [← ha]
    exact hx
  · rw [if_neg hx] at ha
    rw [← ha]

theorem export_selection_nil_of_all_exported (s : Store)
    (h : ∀ r ∈ s.posts, r.exported = true) : export_selection s = [] := by
  rw [export_selection, List.filter_eq_nil_iff]
  intro r hr
  simp [h r hr]

/-- Claim C9 (corrected).  When the selection of unexported rows has at
least one parseable timestamp, a first export writes the file, marks
every selected row as exported, and a second call immediately after
finds an empty selection, writes no file and returns nothing.  (The
claim as stated asserted the marking for every first call; a first call
whose selected rows have no parseable timestamp returns early without
marking anything, see the counterexample.) -/
theorem C9_export_idempotent_after_write (s : Store)
    (h : (export_selection s).filterMap row_parsed_ts ≠ []) :
    ((export_to_csv s).1).isSome = true
    ∧ (∀ r ∈ ((export_to_csv s).2).posts, r.exported = true)
    ∧ export_to_csv ((export_to_csv s).2) = (none, (export_to_csv s).2) := by
  obtain ⟨t, ts, hcons⟩ : ∃ t ts, (export_selection s).filterMap row_parsed_ts = t :: ts := by
    cases hl : (export_selection s).filterMap row_parsed_ts with
    | nil => exact absurd hl h
    | cons a l => exact ⟨a, l, rfl⟩
  have he := export_to_csv_of_parsed_cons s t ts hcons
  rw [he]
  refine ⟨rfl, mark_all_exported_flags s, ?_⟩
  exact export_to_csv_of_empty_selection _
    (export_selection_nil_of_all_exported _ (mark_all_exported_flags s))

/-- Concrete store witnessing C9: one unexported row with a parseable
timestamp. -/
def w9_row : PostRow :=
  { id := some "e1", text := some "t", media_type := some "TEXT_POST"
    media_url := none, thumbnail_url := none, permalink := none
    children := none, timestamp := some "2024-05-05T12:00:00+0000"
    is_quote_post := 0, exported := false, replies_fetched := false }

def w9_store : Store := { posts := [w9_row], replies := [] }

theorem C9_export_idempotent_after_write_witness :
    (export_selection w9_store).filterMap row_parsed_ts ≠ []
    ∧ ((export_to_csv w9_store).1).isSome = true
    ∧ export_to_csv ((export_to_csv w9_store).2) = (none, (export_to_csv w9_store).2) :=
  ⟨by decide,
   (C9_export_idempotent_after_write w9_store (by decide)).1,
   (C9_export_idempotent_after_write w9_store (by decide)).2.2⟩

/-- Concrete store refuting C9 as stated: the single selected row has an
unparseable timestamp, so the first call selects it, marks nothing and
writes nothing, and the second call still finds a non-empty selection. -/
def c9_row : PostRow :=
  { id := some "e2", text := none, media_type := some "TEXT_POST"
    media_url := none, thumbnail_url := none, permalink := none
    children := none, timestamp := some "bad", is_quote_post := 0
    exported := false, replies_fetched := false }

def c9_store : Store := { posts := [c9_row], replies := [] }

theorem C9_counterexample :
    export_selection c9_store ≠ []
    ∧ export_to_csv c9_store = (none, c9_store)
    ∧ export_selection ((export_to_csv c9_store).2) ≠ [] :=
  ⟨by decide, rfl, by decide⟩

/-- Claim C10 (confirmed).  When the store has unexported rows but none
of their timestamps parses, export returns nothing, writes no file and
leaves the store (in particular every exported flag) unchanged, so the
next call selects the same rows again. -/
theorem C10_export_unparseable_noop (s : Store)
    (hne : export_selection s ≠ [])
    (hall : (export_selection s).filterMap row_parsed_ts = []) :
    export_to_csv s = (none, s)
    ∧ export_selection ((export_to_csv s).2) = export_selection s := by
  have h := export_to_csv_of_no_parsed s hall
  exact ⟨h, by rw [h]⟩

/-- Concrete store witnessing C10: one unexported row whose timestamp
does not parse. -/
def w10_row : PostRow :=
  { id := some "e3", text := none, media_type := some "TEXT_POST"
    media_url := none, thumbnail_url := none, permalink := none
    children := none, timestamp := some "not-a-date", is_quote_post := 0
    exported := false, replies_fetched := false }

def w10_store : Store := { posts := [w10_row], replies := [] }

theorem C10_export_unparseable_noop_witness :
    export_selection w10_store ≠ []
    ∧ export_to_csv w10_store = (none, w10_store) :=
  ⟨by decide,
   (C10_export_unparseable_noop w10_store (by decide) (by decide)).1⟩

end ThreadsSpec
